import Mathlib

/-!
Verification of the EDAcation configuration-resolution and toolchain
command-generation engine against its source (`src/project/*.ts`).

The data model and operations below are shallow embeddings of the
TypeScript source.  Modules of the repository that are not present in
the source tree (`target.ts`, `devices.ts`, `util.ts`, and the current
`configuration.ts`) are modelled from the specification; each such
definition carries a doc comment starting with `Modelled from the spec:`.
-/

/- ## Value lists and per-tool options (configuration.ts / spec section 4.2) -/

/-- Modelled from the spec: a project-default-level value-list block
(`schemaValueList` in `configuration.ts`, which is not in the source tree).
`useGenerated` is kept as `Option Bool` so that "explicitly present" is
distinguishable from "defaulted", as required by the resolution policy of
spec section 4.3 step 1; `values` defaults to the empty list. -/
structure ValueList where
  useGenerated : Option Bool := none
  values : List String := []
deriving DecidableEq, Repr

/-- Modelled from the spec: a target-level value-list block
(`schemaValueListTarget`), which additionally carries `useDefault`
(target-level only, default `true`). -/
structure ValueListTarget where
  useGenerated : Option Bool := none
  useDefault : Option Bool := none
  values : List String := []
deriving DecidableEq, Repr

/-- Yosys scalar options (`schemaYosysOptions`): every field optional,
absence tracked with `Option`. -/
structure YosysOptions where
  optimize : Option Bool := none
  topLevelModule : Option String := none
deriving DecidableEq, Repr

/-- nextpnr scalar options (`schemaNextpnrOptions` plus the
`pinConfigFile` field used by `nextpnr.ts`). -/
structure NextpnrOptions where
  placedSvg : Option Bool := none
  routedSvg : Option Bool := none
  routedJson : Option Bool := none
  pinConfigFile : Option String := none
deriving DecidableEq, Repr

/-- iverilog scalar options (`schemaIVerilogOptions`). -/
structure IVerilogOptions where
  testbenchFile : Option String := none
deriving DecidableEq, Repr

/-- A per-tool block at project-default level: named value lists plus
scalar options.  The value lists are keyed by the config id string
(e.g. `inputFiles`, `outputFiles`, `synthCommands`), modelling the
per-key optional fields of the schema. -/
structure WorkerConfig (Opt : Type) where
  lists : List (String × ValueList) := []
  options : Option Opt := none
deriving DecidableEq, Repr

/-- A per-tool block at target level. -/
structure WorkerTargetConfig (Opt : Type) where
  lists : List (String × ValueListTarget) := []
  options : Option Opt := none
deriving DecidableEq, Repr

/-- The project-wide `defaults` block (`schemaTargetDefaults`). -/
structure TargetDefaults where
  yosys : Option (WorkerConfig YosysOptions) := none
  nextpnr : Option (WorkerConfig NextpnrOptions) := none
  iverilog : Option (WorkerConfig IVerilogOptions) := none
deriving DecidableEq, Repr

/-- A target (`schemaTarget` / `TargetConfiguration`). -/
structure TargetConfiguration where
  id : String
  name : String
  vendor : String
  family : String
  device : String
  package : String
  directory : Option String := none
  yosys : Option (WorkerTargetConfig YosysOptions) := none
  nextpnr : Option (WorkerTargetConfig NextpnrOptions) := none
  iverilog : Option (WorkerTargetConfig IVerilogOptions) := none
deriving DecidableEq, Repr

/-- The validated project configuration (`schemaProjectConfiguration`). -/
structure ProjectConfiguration where
  defaults : Option TargetDefaults := none
  targets : List TargetConfiguration := []
deriving DecidableEq, Repr

/-- Tool identifiers (`WorkerId` in `configuration.ts`). -/
inductive WorkerId where
  | yosys
  | nextpnr
  | iverilog
deriving DecidableEq, Repr

/-- Association-list lookup, modelling a JS object property access
`obj[key]` on string-keyed data. -/
def lookupA {α : Type} (l : List (String × α)) (k : String) : Option α :=
  (l.find? (fun p => p.1 = k)).map (fun p => p.2)

/-- JS truthiness of an optional string: `undefined` and `""` are falsy. -/
def truthyS : Option String → Bool
  | none => false
  | some s => s ≠ ""

/-- JS truthiness of an optional boolean. -/
def truthyB (b : Option Bool) : Bool := b.getD false

/- ## Override resolver (target.ts, not in the source tree) -/

/-- Modelled from the spec: `defaultParse` in `target.ts` (missing from
the source tree); the spec says the default `parse` function is the
identity. -/
def defaultParse (values : List String) : List String := values

/-- Modelled from the spec: resolution of `useGenerated`
(spec section 4.3 step 1): target-level value if explicitly present,
else project-default-level value, else `true`. -/
def resolveUseGenerated (d : Option ValueList) (t : Option ValueListTarget) : Bool :=
  match t.bind (fun tb => tb.useGenerated) with
  | some b => b
  | none =>
    match d.bind (fun db => db.useGenerated) with
    | some b => b
    | none => true

/-- Modelled from the spec: resolution of `useDefault`
(spec section 4.3 step 2): target-level only, default `true`. -/
def resolveUseDefault (t : Option ValueListTarget) : Bool :=
  match t.bind (fun tb => tb.useDefault) with
  | some b => b
  | none => true

/-- Modelled from the spec: the core of `getCombined` in `target.ts`
(missing from the source tree), spec section 4.3 steps 3 and 4:
concatenate the generated list (only if `useGenerated`), the
project-default values (only if `useDefault` and a default block
exists, passed through `parse`), then the target values (always,
passed through `parse`), and drop empty entries. -/
def getCombinedBlocks (d : Option ValueList) (t : Option ValueListTarget)
    (generated : List String) (parse : List String → List String) : List String :=
  let g := if resolveUseGenerated d t then generated else []
  let dv :=
    if resolveUseDefault t then
      match d with
      | some db => parse db.values
      | none => []
    else []
  let tv :=
    match t with
    | some tb => parse tb.values
    | none => []
  (g ++ dv ++ tv).filter (fun v => v ≠ "")

/-- The value-list blocks of a tool inside the `defaults` block. -/
def defaultLists (defaults : TargetDefaults) : WorkerId → List (String × ValueList)
  | .yosys => (defaults.yosys.map (fun w => w.lists)).getD []
  | .nextpnr => (defaults.nextpnr.map (fun w => w.lists)).getD []
  | .iverilog => (defaults.iverilog.map (fun w => w.lists)).getD []

/-- The value-list blocks of a tool inside a target. -/
def targetLists (target : TargetConfiguration) : WorkerId → List (String × ValueListTarget)
  | .yosys => (target.yosys.map (fun w => w.lists)).getD []
  | .nextpnr => (target.nextpnr.map (fun w => w.lists)).getD []
  | .iverilog => (target.iverilog.map (fun w => w.lists)).getD []

/-- The project-default value-list block for `(workerId, configId)`,
i.e. `configuration.defaults?.[workerId]?.[configId]`. -/
def defaultValueList (configuration : ProjectConfiguration) (workerId : WorkerId)
    (configId : String) : Option ValueList :=
  configuration.defaults.bind (fun d => lookupA (defaultLists d workerId) configId)

/-- The target-level value-list block for `(targetId, workerId, configId)`,
i.e. `target.[workerId]?.[configId]`. -/
def targetValueList (configuration : ProjectConfiguration) (targetId : String)
    (workerId : WorkerId) (configId : String) : Option ValueListTarget :=
  (configuration.targets.find? (fun t => t.id = targetId)).bind
    (fun t => lookupA (targetLists t workerId) configId)

/-- Modelled from the spec: `getCombined` in `target.ts` (missing from the
source tree).  Resolves the effective ordered value list from the
generated / project-default / target layers (spec section 4.3). -/
def getCombined (configuration : ProjectConfiguration) (targetId : String)
    (workerId : WorkerId) (configId : String) (generated : List String)
    (parse : List String → List String) : List String :=
  getCombinedBlocks (defaultValueList configuration workerId configId)
    (targetValueList configuration targetId workerId configId) generated parse

/-- `getEffectiveTextConfig` (project.ts lines 315-329): forwards to
`getCombined` with the project's configuration and the target's id. -/
def getEffectiveTextConfig (configuration : ProjectConfiguration) (targetId : String)
    (workerId : WorkerId) (configId : String) (generated : List String)
    (parse : List String → List String) : List String :=
  getCombined configuration targetId workerId configId generated parse

/- ## Scalar options resolver (target.ts getOptions, not in the source tree) -/

/-- Later layer overrides the earlier layer on one field, modelling the
behaviour of JS object spread for a single (optional) key. -/
def overrideO {α : Type} (lo hi : Option α) : Option α :=
  match hi with
  | some v => some v
  | none => lo

/-- Field-wise spread `{...lo, ...hi}` of two Yosys option objects. -/
def spreadYosysOptions (lo hi : YosysOptions) : YosysOptions :=
  { optimize := overrideO lo.optimize hi.optimize
    topLevelModule := overrideO lo.topLevelModule hi.topLevelModule }

/-- Field-wise spread of two nextpnr option objects. -/
def spreadNextpnrOptions (lo hi : NextpnrOptions) : NextpnrOptions :=
  { placedSvg := overrideO lo.placedSvg hi.placedSvg
    routedSvg := overrideO lo.routedSvg hi.routedSvg
    routedJson := overrideO lo.routedJson hi.routedJson
    pinConfigFile := overrideO lo.pinConfigFile hi.pinConfigFile }

/-- Field-wise spread of two iverilog option objects. -/
def spreadIVerilogOptions (lo hi : IVerilogOptions) : IVerilogOptions :=
  { testbenchFile := overrideO lo.testbenchFile hi.testbenchFile }

/-- `configuration.defaults?.yosys?.options`, degraded to the empty
object when absent. -/
def defaultsYosysOptions (configuration : ProjectConfiguration) : YosysOptions :=
  ((configuration.defaults.bind (fun d => d.yosys)).bind (fun w => w.options)).getD {}

/-- `target.yosys?.options` of the target with the given id, degraded to
the empty object when absent. -/
def targetYosysOptions (configuration : ProjectConfiguration) (targetId : String) : YosysOptions :=
  (((configuration.targets.find? (fun t => t.id = targetId)).bind
    (fun t => t.yosys)).bind (fun w => w.options)).getD {}

def defaultsNextpnrOptions (configuration : ProjectConfiguration) : NextpnrOptions :=
  ((configuration.defaults.bind (fun d => d.nextpnr)).bind (fun w => w.options)).getD {}

def targetNextpnrOptions (configuration : ProjectConfiguration) (targetId : String) : NextpnrOptions :=
  (((configuration.targets.find? (fun t => t.id = targetId)).bind
    (fun t => t.nextpnr)).bind (fun w => w.options)).getD {}

def defaultsIVerilogOptions (configuration : ProjectConfiguration) : IVerilogOptions :=
  ((configuration.defaults.bind (fun d => d.iverilog)).bind (fun w => w.options)).getD {}

def targetIVerilogOptions (configuration : ProjectConfiguration) (targetId : String) : IVerilogOptions :=
  (((configuration.targets.find? (fun t => t.id = targetId)).bind
    (fun t => t.iverilog)).bind (fun w => w.options)).getD {}

/-- Built-in Yosys tool defaults (`DEFAULT_OPTIONS` in yosys.ts line 16). -/
def yosysDefaultOptions : YosysOptions := { optimize := some true }

/-- `getYosysOptions` (yosys.ts lines 20-21): the effective scalar options
object, `{...toolDefaults, ...defaults?.yosys?.options, ...target.yosys?.options}`.
The merge itself (`getOptions` in `target.ts`) is modelled from the spec,
section 4.3. -/
def getYosysOptions (configuration : ProjectConfiguration) (targetId : String) : YosysOptions :=
  spreadYosysOptions
    (spreadYosysOptions yosysDefaultOptions (defaultsYosysOptions configuration))
    (targetYosysOptions configuration targetId)

/-- Built-in nextpnr tool defaults (`DEFAULT_OPTIONS` in nextpnr.ts lines 13-18). -/
def nextpnrDefaultOptions : NextpnrOptions :=
  { placedSvg := some false, routedSvg := some false, routedJson := some true,
    pinConfigFile := none }

/-- `getNextpnrOptions` (nextpnr.ts lines 22-23). -/
def getNextpnrOptions (configuration : ProjectConfiguration) (targetId : String) : NextpnrOptions :=
  spreadNextpnrOptions
    (spreadNextpnrOptions nextpnrDefaultOptions (defaultsNextpnrOptions configuration))
    (targetNextpnrOptions configuration targetId)

/-- Built-in iverilog tool defaults (`DEFAULT_OPTIONS` in iverilog.ts
lines 15-17: `{testbenchFile: undefined}`). -/
def iverilogDefaultOptions : IVerilogOptions := { testbenchFile := none }

/-- `getIVerilogOptions` (iverilog.ts lines 22-23). -/
def getIVerilogOptions (configuration : ProjectConfiguration) (targetId : String) : IVerilogOptions :=
  spreadIVerilogOptions
    (spreadIVerilogOptions iverilogDefaultOptions (defaultsIVerilogOptions configuration))
    (targetIVerilogOptions configuration targetId)

/- ## File-name utilities (util.ts, not in the source tree) and the device catalog -/

/-- Split a character list at the first occurrence of `c`, returning the
part before and the part after it. -/
def firstSplit (c : Char) : List Char → Option (List Char × List Char)
  | [] => none
  | x :: xs =>
    if x = c then some ([], xs)
    else
      match firstSplit c xs with
      | some (a, b) => some (x :: a, b)
      | none => none

/-- Modelled from the spec: the file-name extension without its dot, as
computed by `path.extname(file).substring(1)` for plain file names
(`""` when the name has no dot): the characters after the last `.`. -/
def fileExtension (p : String) : String :=
  match firstSplit '.' p.data.reverse with
  | none => ""
  | some (extRev, _) => String.mk extRev.reverse

/-- Modelled from the spec: `path.parse(file).name`, the base name of a
file without its directory part and without its extension. -/
def fileStem (p : String) : String :=
  let base : List Char :=
    match firstSplit '/' p.data.reverse with
    | none => p.data
    | some (baseRev, _) => baseRev.reverse
  match firstSplit '.' base.reverse with
  | none => String.mk base
  | some (_, stemRev) => String.mk stemRev.reverse

/-- Modelled from the spec: `FILE_EXTENSIONS_VERILOG` from `util.ts`
(missing from the source tree): the Verilog/SystemVerilog extensions. -/
def FILE_EXTENSIONS_VERILOG : List String := ["v", "sv"]

/-- Modelled from the spec: `FILE_EXTENSIONS_VHDL` from `util.ts`. -/
def FILE_EXTENSIONS_VHDL : List String := ["vhd", "vhdl"]

/-- Modelled from the spec: `FILE_EXTENSIONS_HDL` from `util.ts`: all
hardware-description-language extensions. -/
def FILE_EXTENSIONS_HDL : List String := FILE_EXTENSIONS_VERILOG ++ FILE_EXTENSIONS_VHDL

/-- Modelled from the spec: a device of the catalog (`devices.ts`,
missing from the source tree): its device-id string used on tool command
lines and its supported package ids. -/
structure Device where
  device : String
  packages : List String := []
deriving DecidableEq, Repr

/-- Modelled from the spec: a family with its `architecture` tag and its
devices keyed by id. -/
structure Family where
  architecture : String
  devices : List (String × Device) := []
deriving DecidableEq, Repr

/-- Modelled from the spec: a vendor with its families and its
package-display-name table. -/
structure Vendor where
  families : List (String × Family) := []
  packages : List (String × String) := []
deriving DecidableEq, Repr

/-- Modelled from the spec: the shape of the static `VENDORS` table of
`devices.ts` (missing from the source tree); the generators below take
the table as an explicit parameter. -/
def Catalog : Type := List (String × Vendor)

/- ## Project model state (project.ts) -/

/-- `ProjectInputFileState.type` (project.ts line 33). -/
inductive InputFileType where
  | design
  | testbench
deriving DecidableEq, Repr

/-- `ProjectInputFileState` (project.ts lines 31-34). -/
structure ProjectInputFile where
  path : String
  type : InputFileType
deriving DecidableEq, Repr

/-- `ProjectOutputFileState` (project.ts lines 77-81): `targetId` is
`none` for JS `null`. -/
structure ProjectOutputFile where
  path : String
  targetId : Option String := none
  stale : Bool := false
deriving DecidableEq, Repr

/-- The state owned by the `Project` class (project.ts lines 355-392). -/
structure ProjectState where
  name : String
  inputFiles : List ProjectInputFile := []
  outputFiles : List ProjectOutputFile := []
  configuration : ProjectConfiguration
deriving DecidableEq, Repr

/-- `Project.getTarget` (project.ts lines 540-543): the target with the
given id, if any. -/
def getTargetP (configuration : ProjectConfiguration) (targetId : String) :
    Option TargetConfiguration :=
  configuration.targets.find? (fun t => t.id = targetId)

/-- `Project.hasTarget` (project.ts lines 536-538). -/
def hasTargetP (configuration : ProjectConfiguration) (targetId : String) : Bool :=
  configuration.targets.any (fun t => t.id = targetId)

/-- Modelled from the spec: `getTargetFile` from `target.ts` (missing from
the source tree): a generated file name placed in the target's optional
output directory (spec section 3, "optional output directory"; the CLI
joins `target.directory ?? '.'` with generated names). -/
def getTargetFile (target : TargetConfiguration) (file : String) : String :=
  match target.directory with
  | none => file
  | some d => if d.endsWith "/" then d ++ file else d ++ "/" ++ file

/- ## Yosys generator (yosys.ts lines 1-181) -/

/-- A Yosys pipeline step (`YosysStep` extends `WorkerStep` with script
commands; the current steps also carry an `id`). -/
structure YosysStep where
  id : String
  tool : String
  arguments : List String := []
  commands : List String
deriving DecidableEq, Repr

/-- `YosysWorkerOptions` (yosys.ts line 14). -/
structure YosysWorkerOptions where
  inputFiles : List String
  outputFiles : List String
  target : TargetConfiguration
  options : YosysOptions
  steps : List YosysStep
deriving DecidableEq, Repr

/-- `getFileIngestCommands` (yosys.ts lines 23-50): build the per-file
ingestion commands; VHDL inputs require a (truthy) `topLevelModule` and
produce a plugin-load plus a single `ghdl` elaboration command, Verilog
inputs one `read_verilog` each, followed by the hierarchy command. -/
def getFileIngestCommands (inputFiles : List String) (options : YosysOptions) :
    Except String (List String) :=
  let vhdlFiles := inputFiles.filter (fun f => FILE_EXTENSIONS_VHDL.contains (fileExtension f))
  let verilogFiles := inputFiles.filter (fun f => FILE_EXTENSIONS_VERILOG.contains (fileExtension f))
  let verilogCommands := verilogFiles.map (fun f => "read_verilog -sv \"" ++ f ++ "\"")
  let hierarchyCommand :=
    if truthyS options.topLevelModule then
      "hierarchy -top " ++ options.topLevelModule.getD ""
    else
      "hierarchy -auto-top"
  if vhdlFiles.isEmpty then
    .ok (verilogCommands ++ [hierarchyCommand])
  else
    if truthyS options.topLevelModule then
      .ok (["plugin -i ghdl",
            "ghdl " ++ String.intercalate " " vhdlFiles ++ " -e " ++ options.topLevelModule.getD ""]
           ++ verilogCommands ++ [hierarchyCommand])
    else
      .error "Top level module must be defined when synthesizing VHDL"

/-- `getInputFiles` (yosys.ts lines 52-67): design-typed project input
files with an HDL extension, combined through the override resolver. -/
def getYosysInputFiles (project : ProjectState) (targetId : String) : List String :=
  let generatedInputFiles :=
    (project.inputFiles.filter (fun f =>
      f.type = InputFileType.design && FILE_EXTENSIONS_HDL.contains (fileExtension f.path))).map
      (fun f => f.path)
  (getCombined project.configuration targetId WorkerId.yosys "inputFiles"
    generatedInputFiles defaultParse).filter (fun f => f ≠ "")

/-- `getOutputFiles` (yosys.ts lines 69-81): generated names are placed
in the target's directory and combined through the override resolver. -/
def getYosysOutputFiles (project : ProjectState) (targetId : String) (files : List String) :
    Except String (List String) :=
  match getTargetP project.configuration targetId with
  | none => .error "Target not found"
  | some target =>
    let generatedOutputFiles := files.map (fun f => getTargetFile target f)
    .ok ((getCombined project.configuration targetId WorkerId.yosys "outputFiles"
      generatedOutputFiles defaultParse).filter (fun f => f ≠ ""))

/-- `getYosysSynthesisWorkerOptions` (yosys.ts lines 124-181): the
two-step prepare/synth pipeline. -/
def getYosysSynthesisWorkerOptions (vendors : Catalog) (project : ProjectState)
    (targetId : String) : Except String YosysWorkerOptions :=
  match getTargetP project.configuration targetId with
  | none => .error "Target not found"
  | some target =>
    let options := getYosysOptions project.configuration targetId
    match lookupA vendors target.vendor with
    | none => .error ("Unknown vendor: " ++ target.vendor)
    | some vendor =>
      match lookupA vendor.families target.family with
      | none => .error ("Unknown family: " ++ target.family)
      | some family =>
        let inputFiles := getYosysInputFiles project targetId
        match getYosysOutputFiles project targetId [family.architecture ++ ".json"] with
        | .error e => .error e
        | .ok outputFiles =>
          match getFileIngestCommands inputFiles options with
          | .error e => .error e
          | .ok ingestCommands =>
            let generatedPrepareCommands :=
              ingestCommands ++
              ["proc;", "opt;",
               "write_json \"" ++ getTargetFile target "presynth.yosys.json" ++ "\";",
               ""]
            let prepareCommands := getCombined project.configuration targetId WorkerId.yosys
              "synthPrepareCommands" generatedPrepareCommands defaultParse
            let generatedSynthCommands :=
              ["read_json \"" ++ getTargetFile target "presynth.yosys.json" ++ "\""] ++
              (if family.architecture = "generic" then
                ["synth;", "write_json \"" ++ family.architecture ++ ".json\";"]
              else
                ["synth_" ++ family.architecture ++ " -json \"" ++ family.architecture ++ ".json\";"]) ++
              [""]
            let synthCommands := getCombined project.configuration targetId WorkerId.yosys
              "synthCommands" generatedSynthCommands defaultParse
            .ok
              { inputFiles := inputFiles
                outputFiles := outputFiles
                target := target
                options := options
                steps :=
                  [ { id := "prepare", tool := "yosys", arguments := [], commands := prepareCommands }
                  , { id := "synth", tool := "yosys", arguments := [], commands := synthCommands } ] }

/- ## iverilog generator (iverilog.ts lines 1-68) -/

/-- An iverilog pipeline step (`IVerilogStep = WorkerStep`). -/
structure IVerilogStep where
  tool : String
  arguments : List String
deriving DecidableEq, Repr

/-- `IVerilogWorkerOptions` (iverilog.ts line 13). -/
structure IVerilogWorkerOptions where
  inputFiles : List String
  outputFiles : List String
  target : TargetConfiguration
  options : IVerilogOptions
  steps : List IVerilogStep
deriving DecidableEq, Repr

/-- `generateIVerilogWorkerOptions` (iverilog.ts lines 25-68): resolve
the testbench (configured option if truthy, else the first
testbench-typed input file, else fail), then emit the compile and run
steps. -/
def generateIVerilogWorkerOptions (configuration : ProjectConfiguration)
    (projectInputFiles : List ProjectInputFile) (targetId : String) :
    Except String IVerilogWorkerOptions :=
  match getTargetP configuration targetId with
  | none => .error "Target not found"
  | some target =>
    let options := getIVerilogOptions configuration targetId
    let files := projectInputFiles.filter (fun f =>
      f.type = InputFileType.design && FILE_EXTENSIONS_VERILOG.contains (fileExtension f.path))
    let designFiles := files.map (fun f => f.path)
    let testbenchResult : Except String String :=
      if truthyS options.testbenchFile then
        .ok (options.testbenchFile.getD "")
      else
        match (projectInputFiles.filter (fun f => f.type = InputFileType.testbench)).head? with
        | some f => .ok f.path
        | none => .error "Could not auto-select testbench file: no input files marked as such"
    match testbenchResult with
    | .error e => .error e
    | .ok testbenchFile =>
      let inputFiles := designFiles ++ [testbenchFile]
      let compiledFile := getTargetFile target "simulator.vvp"
      let outputFiles := [compiledFile, fileStem testbenchFile ++ ".vcd"]
      let compileArgs := ["-o", compiledFile] ++ designFiles ++ [testbenchFile]
      .ok
        { inputFiles := inputFiles
          outputFiles := outputFiles
          target := target
          options := options
          steps :=
            [ { tool := "iverilog", arguments := compileArgs }
            , { tool := "vvp", arguments := [compiledFile] } ] }

/- ## nextpnr generator (nextpnr.ts lines 1-161) -/

/-- A nextpnr pipeline step. -/
structure NextpnrStep where
  id : String
  tool : String
  arguments : List String
deriving DecidableEq, Repr

/-- `NextpnrWorkerOptions` (nextpnr.ts line 11). -/
structure NextpnrWorkerOptions where
  inputFiles : List String
  outputFiles : List String
  target : TargetConfiguration
  options : NextpnrOptions
  steps : List NextpnrStep
deriving DecidableEq, Repr

/-- The fixed nexus package-name translation table
(nextpnr.ts lines 91-98). -/
def nexusPackageLookup : List (String × String) :=
  [("WLCSP72", "UWG72"), ("QFN72", "SG72"), ("csfBGA121", "MG121"),
   ("caBGA256", "BG256"), ("csfBGA289", "MG289"), ("caBGA400", "BG400")]

/-- Modelled from the spec: the tokenizer of the external
`string-args-parser` library (an external collaborator): free-form
override strings are split into discrete tokens; quoting rules are not
needed by any claim, so the model splits on spaces. -/
def parseArgs (arg : String) : List String :=
  (arg.splitOn " ").filter (fun t => t ≠ "")

/-- `parseNextpnrArguments` (nextpnr.ts line 20). -/
def parseNextpnrArguments (args : List String) : List String :=
  args.flatMap parseArgs

/-- `parseIVerilogArguments` (iverilog.ts line 70). -/
def parseIVerilogArguments (args : List String) : List String :=
  args.flatMap parseArgs

/-- Replace the first occurrence of `pat` in `s` by `repl`, modelling the
JS `String.replace` with a string pattern (nextpnr.ts line 73). -/
def replaceFirst (s pat repl : String) : String :=
  match s.splitOn pat with
  | [] => s
  | [x] => x
  | x :: rest => x ++ repl ++ String.intercalate pat rest

/-- `getNextpnrWorkerOptions` (nextpnr.ts lines 25-161): the
architecture-specific argument assembly and output files for the single
place-and-route step. -/
def getNextpnrWorkerOptions (vendors : Catalog) (project : ProjectState)
    (targetId : String) : Except String NextpnrWorkerOptions :=
  match getTargetP project.configuration targetId with
  | none => .error "Target not found"
  | some target =>
    let configuration := project.configuration
    let options := getNextpnrOptions configuration targetId
    match lookupA vendors target.vendor with
    | none => .error ("Unknown vendor: " ++ target.vendor)
    | some vendor =>
      match lookupA vendor.families target.family with
      | none => .error ("Unknown family: " ++ target.family)
      | some family =>
        match lookupA family.devices target.device with
        | none => .error ("Unknown device: " ++ target.device)
        | some device =>
          let generatedInputFiles := [getTargetFile target (family.architecture ++ ".json")]
          let inputFiles := (getCombined configuration targetId WorkerId.nextpnr "inputFiles"
            generatedInputFiles defaultParse).filter (fun f => f ≠ "")
          let tool := "nextpnr-" ++ family.architecture
          let archResult : Except String (List String × List String) :=
            if family.architecture = "ecp5" then
              let baseArgs := ["--" ++ device.device, "--package", target.package.toUpper]
              let pinArgs := if truthyS options.pinConfigFile then
                  ["--lpf", options.pinConfigFile.getD ""] else []
              let file := getTargetFile target (family.architecture ++ ".config")
              .ok (baseArgs ++ pinArgs ++ ["--textcfg", file], [file])
            else if family.architecture = "generic" then
              .ok ([], [])
            else if family.architecture = "gowin" then
              .ok (["--device",
                    replaceFirst device.device "-" "-UV" ++ target.package ++ "C5/I4"], [])
            else if family.architecture = "ice40" then
              let baseArgs := ["--" ++ device.device, "--package", target.package]
              let pinArgs := if truthyS options.pinConfigFile then
                  ["--pcf", options.pinConfigFile.getD ""] else []
              let file := getTargetFile target (family.architecture ++ ".asc")
              .ok (baseArgs ++ pinArgs ++ ["--asc", file], [file])
            else if family.architecture = "nexus" then
              match lookupA nexusPackageLookup target.package with
              | none =>
                .error ("Package \"" ++ target.package ++ "\" is currenty not supported.")
              | some devPackage =>
                .ok (["--device", device.device ++ "-7" ++ devPackage ++ "C"], [])
            else
              .error ("Architecture \"" ++ family.architecture ++ "\" is currently not supported.")
          match archResult with
          | .error e => .error e
          | .ok (archArgs, archOutputFiles) =>
            let jsonArgs := archArgs ++ ["--json", inputFiles.headD ""]
            let placedPair :=
              if truthyB options.placedSvg then
                let file := getTargetFile target "placed.svg"
                (["--placed-svg", file], [file])
              else ([], [])
            let routedPair :=
              if truthyB options.routedSvg then
                let file := getTargetFile target "routed.svg"
                (["--routed-svg", file], [file])
              else ([], [])
            let writePair :=
              if truthyB options.routedJson then
                let file := getTargetFile target "routed.nextpnr.json"
                (["--write", file], [file])
              else ([], [])
            let generatedArgs := jsonArgs ++ placedPair.1 ++ routedPair.1 ++ writePair.1
            let generatedOutputFiles :=
              archOutputFiles ++ placedPair.2 ++ routedPair.2 ++ writePair.2
            let outputFiles := (getCombined configuration targetId WorkerId.nextpnr "outputFiles"
              generatedOutputFiles defaultParse).filter (fun f => f ≠ "")
            let args := getCombined configuration targetId WorkerId.nextpnr "arguments"
              generatedArgs parseNextpnrArguments
            .ok
              { inputFiles := inputFiles
                outputFiles := outputFiles
                target := target
                options := options
                steps := [{ id := "pnr", tool := tool, arguments := args }] }

/- ## Project mutations (project.ts) -/

/-- Update the first list element whose path matches, modelling a JS
mutation through the object handle returned by `getOutputFile` (which
uses `Array.find`). -/
def updateFirstOutputFile (files : List ProjectOutputFile) (p : String)
    (upd : ProjectOutputFile → ProjectOutputFile) : List ProjectOutputFile :=
  match files with
  | [] => []
  | f :: rest =>
    if f.path = p then upd f :: rest
    else f :: updateFirstOutputFile rest p upd

/-- The `ProjectOutputFile.targetId` setter (project.ts lines 99-106):
assigning a non-null id validates that the target exists, then updates
the file; assigning `null` always succeeds.  A missing path is a no-op
(no handle to call the setter on). -/
def setOutputFileTargetId (s : ProjectState) (p : String) (targetId : Option String) :
    Except String ProjectState :=
  if s.outputFiles.any (fun f => f.path = p) then
    match targetId with
    | some tid =>
      match getTargetP s.configuration tid with
      | none => .error ("Invalid target id: " ++ tid)
      | some _ =>
        .ok { s with outputFiles :=
          updateFirstOutputFile s.outputFiles p (fun f => { f with targetId := some tid }) }
    | none =>
      .ok { s with outputFiles :=
        updateFirstOutputFile s.outputFiles p (fun f => { f with targetId := none }) }
  else .ok s

/-- One new output file to register (`addOutputFiles` argument shape,
project.ts line 451). -/
structure NewOutputFile where
  path : String
  targetId : String
deriving DecidableEq, Repr

/-- The loop body of `addOutputFiles` (project.ts lines 450-470),
modelling the in-place JS mutation: on a thrown error the state mutated
so far is kept and returned together with the error.  An existing path
is updated through the `targetId` setter (which validates the id) and
has `stale` reset; a new path is pushed after validating that its
non-empty target id resolves (`outputFile.target === null` check).  The
final `sort` uses the comparator `a < b ? -1 : 1` on objects, which
never reports `-1` in JS and therefore leaves the order unchanged. -/
def addOutputFilesGo (s : ProjectState) (files : List NewOutputFile) :
    ProjectState × Option String :=
  match files with
  | [] => (s, none)
  | e :: rest =>
    if s.outputFiles.any (fun f => f.path = e.path) then
      match getTargetP s.configuration e.targetId with
      | none => (s, some ("Invalid target id: " ++ e.targetId))
      | some _ =>
        let updated := updateFirstOutputFile s.outputFiles e.path
          (fun f => { f with targetId := some e.targetId, stale := false })
        addOutputFilesGo { s with outputFiles := updated } rest
    else
      if e.targetId = "" then
        (s, some ("Invalid target ID: " ++ e.targetId))
      else
        match getTargetP s.configuration e.targetId with
        | none => (s, some ("Invalid target ID: " ++ e.targetId))
        | some _ =>
          addOutputFilesGo
            { s with outputFiles :=
              s.outputFiles ++ [{ path := e.path, targetId := some e.targetId, stale := false }] }
            rest

/-- `addOutputFiles` (project.ts lines 450-470). -/
def addOutputFiles (s : ProjectState) (files : List NewOutputFile) :
    ProjectState × Option String :=
  addOutputFilesGo s files

/-- `removeTarget` (project.ts lines 565-575): remove every target with
the given id from the configuration, then null the `targetId` of every
output file that referenced it; no output file is deleted. -/
def removeTarget (s : ProjectState) (id : String) : ProjectState :=
  { s with
    configuration := { s.configuration with
      targets := s.configuration.targets.filter (fun t => t.id ≠ id) }
    outputFiles := s.outputFiles.map (fun f =>
      if f.targetId = some id then { f with targetId := none } else f) }

/-- The `ProjectTarget.id` setter (project.ts lines 154-162): renaming a
target fails when the new id already exists; otherwise only the target's
id is updated — output files referencing the old id are not touched. -/
def renameTarget (s : ProjectState) (oldId newId : String) : Except String ProjectState :=
  if oldId = newId then .ok s
  else if hasTargetP s.configuration newId then
    .error ("Target with ID \"" ++ newId ++ "\" already exists!")
  else
    .ok { s with configuration := { s.configuration with
      targets := s.configuration.targets.map (fun t =>
        if t.id = oldId then { t with id := newId } else t) } }

/-- A partial target update (`Partial<TargetConfiguration>`), restricted
to the fields that matter to the claims; an absent field means the key
is not present in the update object. -/
structure TargetUpdate where
  id : Option String := none
  name : Option String := none
deriving DecidableEq, Repr

/-- `updateTarget` (project.ts lines 577-581) delegating to
`ProjectTarget.update` (project.ts lines 331-341): a truthy new id that
differs from the current one is checked for duplicates, then
`Object.assign` copies every present field of the update object
(including a present falsy id). -/
def updateTarget (s : ProjectState) (targetId : String) (u : TargetUpdate) :
    Except String ProjectState :=
  match getTargetP s.configuration targetId with
  | none => .error ("Target with ID \"" ++ targetId ++ "\" does not exist!")
  | some t =>
    let wantsGuardedRename :=
      match u.id with
      | some nid => nid ≠ "" && nid ≠ t.id
      | none => false
    if wantsGuardedRename && hasTargetP s.configuration (u.id.getD "") then
      .error ("Target with ID \"" ++ u.id.getD "" ++ "\" already exists!")
    else
      .ok { s with configuration := { s.configuration with
        targets := s.configuration.targets.map (fun t2 =>
          if t2.id = targetId then
            { t2 with id := u.id.getD t2.id, name := u.name.getD t2.name }
          else t2) } }

/-- A partial configuration update (`Partial<ProjectConfiguration>`). -/
structure ConfigurationUpdate where
  defaults : Option (Option TargetDefaults) := none
  targets : Option (List TargetConfiguration) := none
deriving DecidableEq, Repr

/-- `updateConfiguration` (project.ts lines 587-597): spread the update
over the configuration, then null out the `targetId` of every output
file whose reference no longer resolves (the `target` getter also
treats an empty-string id as unresolved). -/
def updateConfiguration (s : ProjectState) (u : ConfigurationUpdate) : ProjectState :=
  let cfg : ProjectConfiguration :=
    { defaults := u.defaults.getD s.configuration.defaults
      targets := u.targets.getD s.configuration.targets }
  { s with
    configuration := cfg
    outputFiles := s.outputFiles.map (fun f =>
      match f.targetId with
      | some tid => if tid = "" || !hasTargetP cfg tid then { f with targetId := none } else f
      | none => f) }

/-- The reference invariant of the spec (section 3, OutputFile): every
output file's `targetId` is null or the id of an existing target. -/
def OutputTargetInv (s : ProjectState) : Prop :=
  ∀ f ∈ s.outputFiles, f.targetId.all (fun tid => hasTargetP s.configuration tid) = true

instance (s : ProjectState) : Decidable (OutputTargetInv s) :=
  List.decidableBAll _ s.outputFiles

/- ## Persisted project data and (de)serialization (project.ts lines 57-74, 123-141, 663-679) -/

/-- Modelled from the spec: the raw (pre-validation) shape of a value
list, in which every field may be absent; `schemaProjectConfiguration`
fills `values` with `[]` when absent. -/
structure ValueListRaw where
  useGenerated : Option Bool := none
  values : Option (List String) := none
deriving DecidableEq, Repr

structure ValueListTargetRaw where
  useGenerated : Option Bool := none
  useDefault : Option Bool := none
  values : Option (List String) := none
deriving DecidableEq, Repr

structure WorkerConfigRaw (Opt : Type) where
  lists : List (String × ValueListRaw) := []
  options : Option Opt := none
deriving DecidableEq, Repr

structure WorkerTargetConfigRaw (Opt : Type) where
  lists : List (String × ValueListTargetRaw) := []
  options : Option Opt := none
deriving DecidableEq, Repr

structure TargetDefaultsRaw where
  yosys : Option (WorkerConfigRaw YosysOptions) := none
  nextpnr : Option (WorkerConfigRaw NextpnrOptions) := none
  iverilog : Option (WorkerConfigRaw IVerilogOptions) := none
deriving DecidableEq, Repr

structure TargetConfigurationRaw where
  id : String
  name : String
  vendor : String
  family : String
  device : String
  package : String
  directory : Option String := none
  yosys : Option (WorkerTargetConfigRaw YosysOptions) := none
  nextpnr : Option (WorkerTargetConfigRaw NextpnrOptions) := none
  iverilog : Option (WorkerTargetConfigRaw IVerilogOptions) := none
deriving DecidableEq, Repr

/-- Modelled from the spec: the raw persisted configuration before
validation. -/
structure ProjectConfigurationRaw where
  defaults : Option TargetDefaultsRaw := none
  targets : List TargetConfigurationRaw := []
deriving DecidableEq, Repr

/-- Modelled from the spec: default-filling performed by the schema on a
value-list block (`values` defaults to `[]`; `useGenerated`/`useDefault`
presence is retained, see the resolver). -/
def parseValueList (r : ValueListRaw) : ValueList :=
  { useGenerated := r.useGenerated, values := r.values.getD [] }

def parseValueListTarget (r : ValueListTargetRaw) : ValueListTarget :=
  { useGenerated := r.useGenerated, useDefault := r.useDefault, values := r.values.getD [] }

def parseWorkerConfig {Opt : Type} (r : WorkerConfigRaw Opt) : WorkerConfig Opt :=
  { lists := r.lists.map (fun p => (p.1, parseValueList p.2)), options := r.options }

def parseWorkerTargetConfig {Opt : Type} (r : WorkerTargetConfigRaw Opt) : WorkerTargetConfig Opt :=
  { lists := r.lists.map (fun p => (p.1, parseValueListTarget p.2)), options := r.options }

def parseTargetDefaults (r : TargetDefaultsRaw) : TargetDefaults :=
  { yosys := r.yosys.map parseWorkerConfig
    nextpnr := r.nextpnr.map parseWorkerConfig
    iverilog := r.iverilog.map parseWorkerConfig }

def parseTargetConfiguration (r : TargetConfigurationRaw) : TargetConfiguration :=
  { id := r.id, name := r.name, vendor := r.vendor, family := r.family,
    device := r.device, package := r.package, directory := r.directory,
    yosys := r.yosys.map parseWorkerTargetConfig,
    nextpnr := r.nextpnr.map parseWorkerTargetConfig,
    iverilog := r.iverilog.map parseWorkerTargetConfig }

/-- Modelled from the spec: `schemaProjectConfiguration.safeParse`
(project.ts line 380) on structurally well-typed raw data: validation
succeeds and fills the documented defaults. -/
def parseProjectConfiguration (r : ProjectConfigurationRaw) : ProjectConfiguration :=
  { defaults := r.defaults.map parseTargetDefaults
    targets := r.targets.map parseTargetConfiguration }

/-- Re-encoding of a validated value list into the persisted shape (the
serializer stores the validated configuration object as-is). -/
def valueListToRaw (v : ValueList) : ValueListRaw :=
  { useGenerated := v.useGenerated, values := some v.values }

def valueListTargetToRaw (v : ValueListTarget) : ValueListTargetRaw :=
  { useGenerated := v.useGenerated, useDefault := v.useDefault, values := some v.values }

def workerConfigToRaw {Opt : Type} (w : WorkerConfig Opt) : WorkerConfigRaw Opt :=
  { lists := w.lists.map (fun p => (p.1, valueListToRaw p.2)), options := w.options }

def workerTargetConfigToRaw {Opt : Type} (w : WorkerTargetConfig Opt) : WorkerTargetConfigRaw Opt :=
  { lists := w.lists.map (fun p => (p.1, valueListTargetToRaw p.2)), options := w.options }

def targetDefaultsToRaw (d : TargetDefaults) : TargetDefaultsRaw :=
  { yosys := d.yosys.map workerConfigToRaw
    nextpnr := d.nextpnr.map workerConfigToRaw
    iverilog := d.iverilog.map workerConfigToRaw }

def targetConfigurationToRaw (t : TargetConfiguration) : TargetConfigurationRaw :=
  { id := t.id, name := t.name, vendor := t.vendor, family := t.family,
    device := t.device, package := t.package, directory := t.directory,
    yosys := t.yosys.map workerTargetConfigToRaw,
    nextpnr := t.nextpnr.map workerTargetConfigToRaw,
    iverilog := t.iverilog.map workerTargetConfigToRaw }

def projectConfigurationToRaw (c : ProjectConfiguration) : ProjectConfigurationRaw :=
  { defaults := c.defaults.map targetDefaultsToRaw
    targets := c.targets.map targetConfigurationToRaw }

/-- A persisted input file: a structured record, or a legacy bare path
string (versions <= 0.3.9, project.ts lines 64-70). -/
inductive InputFileData where
  | structured (state : ProjectInputFile)
  | legacy (path : String)
deriving DecidableEq, Repr

/-- A persisted output file: a structured record, or a legacy bare path
string (versions <= 0.3.12, project.ts lines 131-137). -/
inductive OutputFileData where
  | structured (state : ProjectOutputFile)
  | legacy (path : String)
deriving DecidableEq, Repr

/-- `ProjectInputFile.deserialize` (project.ts lines 64-70): a legacy
bare string becomes a `design`-typed record. -/
def deserializeInputFile : InputFileData → ProjectInputFile
  | .structured st => st
  | .legacy p => { path := p, type := InputFileType.design }

/-- `ProjectOutputFile.deserialize` (project.ts lines 131-137): a legacy
bare string becomes a record with null `targetId` and `stale = false`. -/
def deserializeOutputFile : OutputFileData → ProjectOutputFile
  | .structured st => st
  | .legacy p => { path := p, targetId := st_targetId, stale := st_stale }
where
  st_targetId : Option String := none
  st_stale : Bool := false

/-- `ProjectState` as persisted (`ProjectState` interface,
project.ts lines 348-353). -/
structure SerializedProject where
  name : String
  inputFiles : List InputFileData
  outputFiles : List OutputFileData
  configuration : ProjectConfigurationRaw
deriving DecidableEq, Repr

/-- `Project.serialize` (project.ts lines 663-670). -/
def serializeProject (p : ProjectState) : SerializedProject :=
  { name := p.name
    inputFiles := p.inputFiles.map (fun f => InputFileData.structured f)
    outputFiles := p.outputFiles.map (fun f => OutputFileData.structured f)
    configuration := projectConfigurationToRaw p.configuration }

/-- `Project.deserialize` (project.ts lines 672-679) through the
`Project` constructor (lines 365-392): files are deserialized (legacy
strings upgraded), the configuration is validated, and the constructor's
`updateConfiguration({})` call nulls every output-file target reference
that does not resolve. -/
def deserializeProject (d : SerializedProject) : ProjectState :=
  let s : ProjectState :=
    { name := d.name
      inputFiles := d.inputFiles.map deserializeInputFile
      outputFiles := d.outputFiles.map deserializeOutputFile
      configuration := parseProjectConfiguration d.configuration }
  updateConfiguration s {}

/- ## Claim C1: value-list resolution -/

/-- C1: For every configuration, target id, tool id and value-list key,
given a generated list `G`, a project-default values list `D` and a
target-level values list `T`: when `useGenerated` and `useDefault` both
resolve to true, the effective list equals `G ++ parse D ++ parse T`
(in that order) with empty entries removed; a target-level
`useGenerated = false` removes exactly the `G` segment regardless of
the project-default-level setting; a target-level `useDefault = false`
removes exactly the `D` segment while retaining `G` and `T`. -/
theorem C1_effective_value_list (configuration : ProjectConfiguration) (targetId : String)
    (workerId : WorkerId) (configId : String) (G : List String)
    (parse : List String → List String) (dB : ValueList) (tB : ValueListTarget)
    (hd : defaultValueList configuration workerId configId = some dB)
    (ht : targetValueList configuration targetId workerId configId = some tB) :
    (resolveUseGenerated (some dB) (some tB) = true → resolveUseDefault (some tB) = true →
      getEffectiveTextConfig configuration targetId workerId configId G parse =
        (G ++ parse dB.values ++ parse tB.values).filter (fun v => v ≠ "")) ∧
    (tB.useGenerated = some false →
      getEffectiveTextConfig configuration targetId workerId configId G parse =
        ((if resolveUseDefault (some tB) then parse dB.values else []) ++
          parse tB.values).filter (fun v => v ≠ "")) ∧
    (tB.useDefault = some false → resolveUseGenerated (some dB) (some tB) = true →
      getEffectiveTextConfig configuration targetId workerId configId G parse =
        (G ++ parse tB.values).filter (fun v => v ≠ "")) := by
  have hcore : getEffectiveTextConfig configuration targetId workerId configId G parse =
      getCombinedBlocks (some dB) (some tB) G parse := by
    unfold getEffectiveTextConfig getCombined
    rw [hd, ht]
  refine ⟨?_, ?_, ?_⟩
  · intro hg hdef
    rw [hcore]
    unfold getCombinedBlocks
    rw [hg, hdef]
    simp
  · intro hg
    have hg2 : resolveUseGenerated (some dB) (some tB) = false := by
      unfold resolveUseGenerated
      simp [hg]
    rw [hcore]
    unfold getCombinedBlocks
    rw [hg2]
    by_cases hdef : resolveUseDefault (some tB) = true
    · rw [hdef]
      simp
    · rw [Bool.not_eq_true] at hdef
      rw [hdef]
      simp
  · intro hdef hg
    have hdef2 : resolveUseDefault (some tB) = false := by
      unfold resolveUseDefault
      simp [hdef]
    rw [hcore]
    unfold getCombinedBlocks
    rw [hg, hdef2]
    simp

/-- Configuration used to witness C1: a `yosys.inputFiles` default block
and target block with explicit flags. -/
def c1Target : TargetConfiguration :=
  { id := "t1", name := "T", vendor := "lattice", family := "ecp5",
    device := "lfe5u-25", package := "caBGA381",
    yosys := some { lists := [("inputFiles", { values := ["tv", ""] })] } }

def c1Configuration : ProjectConfiguration :=
  { defaults := some { yosys := some { lists := [("inputFiles", { values := ["dv"] })] } }
    targets := [c1Target] }

theorem C1_effective_value_list_witness :
    getEffectiveTextConfig c1Configuration "t1" WorkerId.yosys "inputFiles"
      ["g", ""] defaultParse =
      ((["g", ""] ++ defaultParse ["dv"] ++ defaultParse ["tv", ""]).filter (fun v => v ≠ "")) :=
  (C1_effective_value_list c1Configuration "t1" WorkerId.yosys "inputFiles" ["g", ""]
    defaultParse { values := ["dv"] } { values := ["tv", ""] } rfl rfl).1 rfl rfl

/- ## Claim C2: scalar options resolution -/

/-- C2: the effective Yosys options are the field-wise three-layer merge
of built-in defaults, project-level default options and target options;
the resolution is idempotent (a pure function of the configuration and
target) and satisfies per-field override precedence: a field set at
target level wins, else a field set in the project defaults wins, else
the built-in default applies. -/
theorem C2_options_resolution (configuration : ProjectConfiguration) (targetId : String) :
    (getYosysOptions configuration targetId = getYosysOptions configuration targetId) ∧
    (getYosysOptions configuration targetId =
      spreadYosysOptions
        (spreadYosysOptions yosysDefaultOptions (defaultsYosysOptions configuration))
        (targetYosysOptions configuration targetId)) ∧
    (∀ b, (targetYosysOptions configuration targetId).optimize = some b →
      (getYosysOptions configuration targetId).optimize = some b) ∧
    ((targetYosysOptions configuration targetId).optimize = none →
      ∀ b, (defaultsYosysOptions configuration).optimize = some b →
        (getYosysOptions configuration targetId).optimize = some b) ∧
    ((targetYosysOptions configuration targetId).optimize = none →
      (defaultsYosysOptions configuration).optimize = none →
        (getYosysOptions configuration targetId).optimize = some true) ∧
    (∀ m, (targetYosysOptions configuration targetId).topLevelModule = some m →
      (getYosysOptions configuration targetId).topLevelModule = some m) ∧
    ((targetYosysOptions configuration targetId).topLevelModule = none →
      ∀ m, (defaultsYosysOptions configuration).topLevelModule = some m →
        (getYosysOptions configuration targetId).topLevelModule = some m) ∧
    ((targetYosysOptions configuration targetId).topLevelModule = none →
      (defaultsYosysOptions configuration).topLevelModule = none →
        (getYosysOptions configuration targetId).topLevelModule = none) := by
  refine ⟨rfl, rfl, ?_, ?_, ?_, ?_, ?_, ?_⟩
  · intro b hb
    simp [getYosysOptions, spreadYosysOptions, overrideO, hb]
  · intro hnone b hb
    simp [getYosysOptions, spreadYosysOptions, overrideO, hnone, hb]
  · intro h1 h2
    simp [getYosysOptions, spreadYosysOptions, overrideO, h1, h2, yosysDefaultOptions]
  · intro m hm
    simp [getYosysOptions, spreadYosysOptions, overrideO, hm]
  · intro hnone m hm
    simp [getYosysOptions, spreadYosysOptions, overrideO, hnone, hm]
  · intro h1 h2
    simp [getYosysOptions, spreadYosysOptions, overrideO, h1, h2, yosysDefaultOptions]

/-- Configuration used to witness C2: target sets `optimize`, the
project defaults set `topLevelModule`. -/
def c2Target : TargetConfiguration :=
  { id := "t1", name := "T", vendor := "lattice", family := "ecp5",
    device := "lfe5u-25", package := "caBGA381",
    yosys := some { options := some { optimize := some false } } }

def c2Configuration : ProjectConfiguration :=
  { defaults := some { yosys := some { options := some { topLevelModule := some "top" } } }
    targets := [c2Target] }

theorem C2_options_resolution_witness :
    (getYosysOptions c2Configuration "t1").optimize = some false ∧
    (getYosysOptions c2Configuration "t1").topLevelModule = some "top" :=
  ⟨(C2_options_resolution c2Configuration "t1").2.2.1 false rfl,
   (C2_options_resolution c2Configuration "t1").2.2.2.2.2.2.1 rfl "top" rfl⟩

/- ## Claim C8: removeTarget frame conditions -/

/-- C8: `removeTarget` removes the target with the given id from the
configuration and nulls the `targetId` of exactly the output files that
referenced it; no output file is deleted, paths and stale flags are
unchanged, and the `targetId` of non-referencing files is unchanged
(as are the input files and the project name). -/
theorem C8_removeTarget (s : ProjectState) (id : String) :
    ((removeTarget s id).configuration.targets =
      s.configuration.targets.filter (fun t => t.id ≠ id)) ∧
    ((removeTarget s id).outputFiles.length = s.outputFiles.length) ∧
    ((removeTarget s id).outputFiles.map (fun f => f.path) =
      s.outputFiles.map (fun f => f.path)) ∧
    ((removeTarget s id).outputFiles.map (fun f => f.stale) =
      s.outputFiles.map (fun f => f.stale)) ∧
    ((removeTarget s id).outputFiles.map (fun f => f.targetId) =
      s.outputFiles.map (fun f => if f.targetId = some id then none else f.targetId)) ∧
    ((removeTarget s id).inputFiles = s.inputFiles) ∧
    ((removeTarget s id).name = s.name) := by
  refine ⟨rfl, by simp [removeTarget], ?_, ?_, ?_, rfl, rfl⟩
  · simp only [removeTarget, List.map_map]
    apply List.map_congr_left
    intro f _
    by_cases h : f.targetId = some id <;> simp [h]
  · simp only [removeTarget, List.map_map]
    apply List.map_congr_left
    intro f _
    by_cases h : f.targetId = some id <;> simp [h]
  · simp only [removeTarget, List.map_map]
    apply List.map_congr_left
    intro f _
    by_cases h : f.targetId = some id <;> simp [h]

/- ## Helper lemmas about targets and output-file updates -/

theorem hasTargetP_of_getTargetP {cfg : ProjectConfiguration} {tid : String}
    {t : TargetConfiguration} (h : getTargetP cfg tid = some t) :
    hasTargetP cfg tid = true := by
  unfold getTargetP at h
  unfold hasTargetP
  rw [List.any_eq_true]
  exact ⟨t, List.mem_of_find?_eq_some h, by
    have := List.find?_some h
    simpa using this⟩

theorem hasTargetP_iff_exists {cfg : ProjectConfiguration} {tid : String} :
    hasTargetP cfg tid = true ↔ ∃ t ∈ cfg.targets, t.id = tid := by
  unfold hasTargetP
  rw [List.any_eq_true]
  constructor
  · rintro ⟨t, ht, he⟩
    exact ⟨t, ht, by simpa using he⟩
  · rintro ⟨t, ht, he⟩
    exact ⟨t, ht, by simpa using he⟩

theorem mem_updateFirstOutputFile {l : List ProjectOutputFile} {p : String}
    {upd : ProjectOutputFile → ProjectOutputFile} {f' : ProjectOutputFile}
    (h : f' ∈ updateFirstOutputFile l p upd) :
    f' ∈ l ∨ ∃ f ∈ l, f' = upd f := by
  induction l with
  | nil => simp [updateFirstOutputFile] at h
  | cons g rest ih =>
    unfold updateFirstOutputFile at h
    by_cases hg : g.path = p
    · rw [if_pos hg] at h
      rcases List.mem_cons.mp h with h1 | h1
      · exact Or.inr ⟨g, List.mem_cons_self _ _, h1⟩
      · exact Or.inl (List.mem_cons_of_mem _ h1)
    · rw [if_neg hg] at h
      rcases List.mem_cons.mp h with h1 | h1
      · exact Or.inl (h1 ▸ List.mem_cons_self _ _)
      · rcases ih h1 with h2 | ⟨f, hf, he⟩
        · exact Or.inl (List.mem_cons_of_mem _ h2)
        · exact Or.inr ⟨f, List.mem_cons_of_mem _ hf, he⟩

theorem map_updateFirstOutputFile (l : List ProjectOutputFile) (p : String)
    (upd : ProjectOutputFile → ProjectOutputFile) (g : ProjectOutputFile → α)
    (hg : ∀ f, g (upd f) = g f) :
    (updateFirstOutputFile l p upd).map g = l.map g := by
  induction l with
  | nil => rfl
  | cons f rest ih =>
    unfold updateFirstOutputFile
    by_cases hf : f.path = p
    · rw [if_pos hf]
      simp [hg]
    · rw [if_neg hf]
      simp [ih]

/- ## Claim C4: the output-file target-reference invariant -/

theorem addOutputFilesGo_preserves_inv (files : List NewOutputFile) :
    ∀ s : ProjectState, OutputTargetInv s → OutputTargetInv (addOutputFilesGo s files).1 := by
  induction files with
  | nil => intro s h; exact h
  | cons e rest ih =>
    intro s h
    unfold addOutputFilesGo
    by_cases hex : s.outputFiles.any (fun f => f.path = e.path) = true
    · rw [if_pos hex]
      cases hgt : getTargetP s.configuration e.targetId with
      | none => exact h
      | some t =>
        apply ih
        intro f' hf'
        rcases mem_updateFirstOutputFile hf' with hmem | ⟨f, hf, he⟩
        · exact h f' hmem
        · subst he
          simp [hasTargetP_of_getTargetP hgt]
    · rw [if_neg hex]
      by_cases hz : e.targetId = ""
      · rw [if_pos hz]; exact h
      · rw [if_neg hz]
        cases hgt : getTargetP s.configuration e.targetId with
        | none => exact h
        | some t =>
          apply ih
          intro f' hf'
          rcases List.mem_append.mp hf' with hmem | hmem
          · exact h f' hmem
          · simp only [List.mem_singleton] at hmem
            subst hmem
            simp [hasTargetP_of_getTargetP hgt]

theorem setOutputFileTargetId_preserves_inv (s : ProjectState) (p : String)
    (tid? : Option String) (s' : ProjectState) (h : OutputTargetInv s)
    (he : setOutputFileTargetId s p tid? = .ok s') : OutputTargetInv s' := by
  unfold setOutputFileTargetId at he
  by_cases hex : s.outputFiles.any (fun f => f.path = p) = true
  · rw [if_pos hex] at he
    cases tid? with
    | some tid =>
      dsimp only at he
      cases hgt : getTargetP s.configuration tid with
      | none => rw [hgt] at he; exact absurd he (by simp)
      | some t =>
        rw [hgt] at he
        injection he with he
        subst he
        intro f' hf'
        rcases mem_updateFirstOutputFile hf' with hmem | ⟨f, hf, hfe⟩
        · exact h f' hmem
        · subst hfe
          simp [hasTargetP_of_getTargetP hgt]
    | none =>
      dsimp only at he
      injection he with he
      subst he
      intro f' hf'
      rcases mem_updateFirstOutputFile hf' with hmem | ⟨f, hf, hfe⟩
      · exact h f' hmem
      · subst hfe
        simp
  · rw [if_neg hex] at he
    injection he with he
    subst he
    exact h

theorem removeTarget_preserves_inv (s : ProjectState) (id : String)
    (h : OutputTargetInv s) : OutputTargetInv (removeTarget s id) := by
  intro f' hf'
  unfold removeTarget at hf' ⊢
  simp only [List.mem_map] at hf'
  rcases hf' with ⟨f, hf, he⟩
  subst he
  by_cases hid : f.targetId = some id
  · simp [hid]
  · rw [if_neg hid]
    cases hft : f.targetId with
    | none => simp
    | some tid =>
      have htid : tid ≠ id := by
        intro hc
        exact hid (by rw [hft, hc])
      have hbase := h f hf
      rw [hft] at hbase
      simp only [Option.all_some] at hbase
      rcases hasTargetP_iff_exists.mp hbase with ⟨t, ht, hte⟩
      simp only [Option.all_some]
      apply hasTargetP_iff_exists.mpr
      refine ⟨t, ?_, hte⟩
      simp only [List.mem_filter]
      refine ⟨ht, by simp [hte, htid]⟩

theorem updateConfiguration_establishes_inv (s : ProjectState) (u : ConfigurationUpdate) :
    OutputTargetInv (updateConfiguration s u) := by
  intro f' hf'
  unfold updateConfiguration at hf' ⊢
  simp only [List.mem_map] at hf'
  rcases hf' with ⟨f, hf, he⟩
  cases hft : f.targetId with
  | none =>
    rw [hft] at he
    dsimp only at he
    subst he
    simp [hft]
  | some tid =>
    rw [hft] at he
    dsimp only at he
    by_cases hcond : (tid = "" || !hasTargetP
        { defaults := u.defaults.getD s.configuration.defaults
          targets := u.targets.getD s.configuration.targets } tid) = true
    · rw [if_pos hcond] at he
      subst he
      simp
    · rw [if_neg hcond] at he
      subst he
      rw [hft]
      simp only [Option.all_some]
      simp only [Bool.or_eq_true, Bool.not_eq_true', not_or] at hcond
      rcases hcond with ⟨h1, h2⟩
      simpa using h2

theorem updateTarget_no_rename_preserves_inv (s : ProjectState) (tid : String)
    (u : TargetUpdate) (s' : ProjectState) (hid : u.id = none)
    (h : OutputTargetInv s) (he : updateTarget s tid u = .ok s') : OutputTargetInv s' := by
  unfold updateTarget at he
  cases hgt : getTargetP s.configuration tid with
  | none => rw [hgt] at he; exact absurd he (by simp)
  | some t =>
    rw [hgt] at he
    simp only [hid] at he
    simp only [Bool.false_and, Bool.false_eq_true, if_false] at he
    injection he with he
    subst he
    intro f' hf'
    have hbase := h f' hf'
    cases hft : f'.targetId with
    | none => simp
    | some tid' =>
      rw [hft] at hbase
      simp only [Option.all_some] at hbase ⊢
      unfold hasTargetP at hbase ⊢
      simp only [List.any_map]
      apply (List.any_eq_true).mpr
      rcases (List.any_eq_true).mp hbase with ⟨t2, ht2, hte⟩
      refine ⟨t2, ht2, ?_⟩
      by_cases hsel : t2.id = tid <;> simp [Function.comp, hsel, hid] at hte ⊢ <;> exact hte

/-- C4 (amended): every mutation of the Project model that does not
change a target's id preserves the invariant that each OutputFile's
`targetId` is null or the id of an existing target — registering output
files, setting a `targetId` (which fails when a non-null id names no
existing target), removing a target, updating the configuration, and
updating a target without an id change; renaming a target's id is the
exception (see the counterexample) because output files referencing the
old id are not updated. -/
theorem C4_reference_invariant_amended :
    (∀ (s : ProjectState) (files : List NewOutputFile),
      OutputTargetInv s → OutputTargetInv (addOutputFiles s files).1) ∧
    (∀ (s : ProjectState) (p : String) (tid? : Option String) (s' : ProjectState),
      OutputTargetInv s → setOutputFileTargetId s p tid? = .ok s' → OutputTargetInv s') ∧
    (∀ (s : ProjectState) (p : String) (tid : String),
      s.outputFiles.any (fun f => f.path = p) = true →
      getTargetP s.configuration tid = none →
      setOutputFileTargetId s p (some tid) = .error ("Invalid target id: " ++ tid)) ∧
    (∀ (s : ProjectState) (id : String),
      OutputTargetInv s → OutputTargetInv (removeTarget s id)) ∧
    (∀ (s : ProjectState) (u : ConfigurationUpdate),
      OutputTargetInv (updateConfiguration s u)) ∧
    (∀ (s : ProjectState) (tid : String) (u : TargetUpdate) (s' : ProjectState),
      u.id = none → OutputTargetInv s → updateTarget s tid u = .ok s' →
      OutputTargetInv s') := by
  refine ⟨?_, ?_, ?_, ?_, ?_, ?_⟩
  · intro s files h
    exact addOutputFilesGo_preserves_inv files s h
  · intro s p tid? s' h he
    exact setOutputFileTargetId_preserves_inv s p tid? s' h he
  · intro s p tid hex hgt
    unfold setOutputFileTargetId
    rw [if_pos hex]
    dsimp only
    rw [hgt]
  · intro s id h
    exact removeTarget_preserves_inv s id h
  · intro s u
    exact updateConfiguration_establishes_inv s u
  · intro s tid u s' hid h he
    exact updateTarget_no_rename_preserves_inv s tid u s' hid h he

/-- The project state used in the C4 counterexample and witness: one
target `t1` and one output file registered to it. -/
def c4State : ProjectState :=
  { name := "p"
    inputFiles := []
    outputFiles := [{ path := "out.bin", targetId := some "t1", stale := false }]
    configuration :=
      { targets := [{ id := "t1", name := "T", vendor := "lattice", family := "ecp5",
                      device := "lfe5u-25", package := "caBGA381" }] } }

/-- The state reached from `c4State` by renaming target `t1` to `t2`. -/
def c4Renamed : ProjectState :=
  { name := "p"
    inputFiles := []
    outputFiles := [{ path := "out.bin", targetId := some "t1", stale := false }]
    configuration :=
      { targets := [{ id := "t2", name := "T", vendor := "lattice", family := "ecp5",
                      device := "lfe5u-25", package := "caBGA381" }] } }

/-- C4 counterexample: renaming a target's id succeeds but leaves an
output file referencing the old id, so "renaming a target's id"
does not preserve the reference invariant as the claim states. -/
theorem C4_reference_invariant_counterexample :
    OutputTargetInv c4State ∧
    renameTarget c4State "t1" "t2" = Except.ok c4Renamed ∧
    ¬ OutputTargetInv c4Renamed :=
  ⟨by decide, by rfl, by decide⟩

theorem C4_reference_invariant_amended_witness :
    OutputTargetInv (addOutputFiles c4State [{ path := "x.json", targetId := "t1" }]).1 :=
  C4_reference_invariant_amended.1 c4State [{ path := "x.json", targetId := "t1" }] (by decide)

/- ## Claim C10: addOutputFiles never duplicates paths -/

theorem addOutputFilesGo_nodup_paths (files : List NewOutputFile) :
    ∀ s : ProjectState, (s.outputFiles.map (fun f => f.path)).Nodup →
    ((addOutputFilesGo s files).1.outputFiles.map (fun f => f.path)).Nodup := by
  induction files with
  | nil => intro s h; exact h
  | cons e rest ih =>
    intro s h
    unfold addOutputFilesGo
    by_cases hex : s.outputFiles.any (fun f => f.path = e.path) = true
    · rw [if_pos hex]
      cases hgt : getTargetP s.configuration e.targetId with
      | none => exact h
      | some t =>
        apply ih
        have hm := map_updateFirstOutputFile s.outputFiles e.path
          (fun f => { f with targetId := some e.targetId, stale := false })
          (fun f => f.path) (fun f => rfl)
        simpa [hm] using h
    · rw [if_neg hex]
      by_cases hz : e.targetId = ""
      · rw [if_pos hz]; exact h
      · rw [if_neg hz]
        cases hgt : getTargetP s.configuration e.targetId with
        | none => exact h
        | some t =>
          apply ih
          have hnotin : e.path ∉ s.outputFiles.map (fun f => f.path) := by
            intro hc
            rcases List.mem_map.mp hc with ⟨f, hf, hfe⟩
            have hany : s.outputFiles.any (fun f => f.path = e.path) = true :=
              List.any_eq_true.mpr ⟨f, hf, by simp [hfe]⟩
            exact hex hany
          simp only [List.map_append, List.map_cons, List.map_nil]
          rw [List.nodup_append]
          exact ⟨h, List.nodup_singleton _, by
            intro a ha hb
            simp only [List.mem_singleton] at hb
            subst hb
            exact hnotin ha⟩

/-- C10 (amended): `addOutputFiles` never creates two output files with
the same path; when the path already exists and the supplied target id
names an existing target, the file count is unchanged and the existing
entry's `targetId` is updated and its `stale` flag reset; a genuinely
new path is added exactly when its (non-empty) target id names an
existing target; when the supplied target id names no existing target
the call fails — for new and for already-existing paths alike (see the
counterexample). -/
theorem C10_addOutputFiles_amended :
    (∀ (s : ProjectState) (files : List NewOutputFile),
      (s.outputFiles.map (fun f => f.path)).Nodup →
      ((addOutputFiles s files).1.outputFiles.map (fun f => f.path)).Nodup) ∧
    (∀ (s : ProjectState) (e : NewOutputFile) (t : TargetConfiguration),
      s.outputFiles.any (fun f => f.path = e.path) = true →
      getTargetP s.configuration e.targetId = some t →
      addOutputFiles s [e] =
        ({ s with outputFiles := updateFirstOutputFile s.outputFiles e.path (fun f => { f with targetId := some e.targetId, stale := false }) }, none) ∧
      (addOutputFiles s [e]).1.outputFiles.length = s.outputFiles.length) ∧
    (∀ (s : ProjectState) (e : NewOutputFile) (t : TargetConfiguration),
      s.outputFiles.any (fun f => f.path = e.path) = false →
      e.targetId ≠ "" →
      getTargetP s.configuration e.targetId = some t →
      addOutputFiles s [e] =
        ({ s with outputFiles := s.outputFiles ++ [{ path := e.path, targetId := some e.targetId, stale := false }] }, none)) ∧
    (∀ (s : ProjectState) (e : NewOutputFile),
      s.outputFiles.any (fun f => f.path = e.path) = false →
      (e.targetId = "" ∨ getTargetP s.configuration e.targetId = none) →
      (addOutputFiles s [e]).2.isSome = true ∧ (addOutputFiles s [e]).1 = s) := by
  refine ⟨?_, ?_, ?_, ?_⟩
  · intro s files h
    exact addOutputFilesGo_nodup_paths files s h
  · intro s e t hex hgt
    have heq : addOutputFiles s [e] =
        ({ s with outputFiles := updateFirstOutputFile s.outputFiles e.path (fun f => { f with targetId := some e.targetId, stale := false }) }, none) := by
      unfold addOutputFiles addOutputFilesGo
      rw [if_pos hex, hgt]
      rfl
    refine ⟨heq, ?_⟩
    rw [heq]
    have hm := map_updateFirstOutputFile s.outputFiles e.path
      (fun f => { f with targetId := some e.targetId, stale := false })
      (fun f => f.path) (fun f => rfl)
    have := congrArg List.length hm
    simpa using this
  · intro s e t hex hz hgt
    unfold addOutputFiles addOutputFilesGo
    rw [if_neg (by simp [hex]), if_neg hz, hgt]
    rfl
  · intro s e hex hbad
    rcases hbad with hz | hgt
    · constructor
      · unfold addOutputFiles addOutputFilesGo
        rw [if_neg (by simp [hex]), if_pos hz]
        rfl
      · unfold addOutputFiles addOutputFilesGo
        rw [if_neg (by simp [hex]), if_pos hz]
    · by_cases hz : e.targetId = ""
      · constructor
        · unfold addOutputFiles addOutputFilesGo
          rw [if_neg (by simp [hex]), if_pos hz]
          rfl
        · unfold addOutputFiles addOutputFilesGo
          rw [if_neg (by simp [hex]), if_pos hz]
      · constructor
        · unfold addOutputFiles addOutputFilesGo
          rw [if_neg (by simp [hex]), if_neg hz, hgt]
          rfl
        · unfold addOutputFiles addOutputFilesGo
          rw [if_neg (by simp [hex]), if_neg hz, hgt]

/-- The project state of the C10 counterexample: target `t1` exists and
the output file `a.out` already exists, registered to it and stale. -/
def c10State : ProjectState :=
  { name := "p"
    inputFiles := []
    outputFiles := [{ path := "a.out", targetId := some "t1", stale := true }]
    configuration :=
      { targets := [{ id := "t1", name := "T", vendor := "lattice", family := "ecp5",
                      device := "lfe5u-25", package := "caBGA381" }] } }

/-- C10 counterexample: registering an already-existing path with a
target id that names no target fails — the entry's `targetId` is not set
to the supplied id and its `stale` flag is not reset, contrary to the
claim's unconditional description of the existing-path case. -/
theorem C10_addOutputFiles_counterexample :
    (addOutputFiles c10State [{ path := "a.out", targetId := "bogus" }]).2 =
      some "Invalid target id: bogus" ∧
    (addOutputFiles c10State [{ path := "a.out", targetId := "bogus" }]).1 = c10State :=
  ⟨by rfl, by rfl⟩

theorem C10_addOutputFiles_amended_witness :
    addOutputFiles c10State [{ path := "a.out", targetId := "t1" }] =
      ({ c10State with outputFiles := updateFirstOutputFile c10State.outputFiles "a.out" (fun f => { f with targetId := some "t1", stale := false }) }, none) ∧
    (addOutputFiles c10State [{ path := "a.out", targetId := "t1" }]).1.outputFiles.length =
      c10State.outputFiles.length :=
  C10_addOutputFiles_amended.2.1 c10State { path := "a.out", targetId := "t1" }
    { id := "t1", name := "T", vendor := "lattice", family := "ecp5",
      device := "lfe5u-25", package := "caBGA381" } (by decide) (by decide)

/- ## Claim C9: serialization round trip -/

theorem listMapRoundTrip {α β : Type} {f : α → β} {g : β → α} (h : ∀ a, g (f a) = a)
    (l : List α) : (l.map f).map g = l := by
  rw [List.map_map]
  have : (g ∘ f) = fun a => a := funext h
  rw [this]
  exact List.map_id' l

theorem optionMapRoundTrip {α β : Type} {f : α → β} {g : β → α} (h : ∀ a, g (f a) = a)
    (o : Option α) : (o.map f).map g = o := by
  cases o with
  | none => rfl
  | some a => simp [h]

theorem parseWorkerConfig_toRaw {Opt : Type} (w : WorkerConfig Opt) :
    parseWorkerConfig (workerConfigToRaw w) = w := by
  cases w with
  | mk lists options =>
    simp only [parseWorkerConfig, workerConfigToRaw]
    rw [listMapRoundTrip (fun p => rfl)]

theorem parseWorkerTargetConfig_toRaw {Opt : Type} (w : WorkerTargetConfig Opt) :
    parseWorkerTargetConfig (workerTargetConfigToRaw w) = w := by
  cases w with
  | mk lists options =>
    simp only [parseWorkerTargetConfig, workerTargetConfigToRaw]
    rw [listMapRoundTrip (fun p => rfl)]

theorem parseTargetDefaults_toRaw (d : TargetDefaults) :
    parseTargetDefaults (targetDefaultsToRaw d) = d := by
  cases d with
  | mk y n i =>
    simp only [parseTargetDefaults, targetDefaultsToRaw]
    rw [optionMapRoundTrip parseWorkerConfig_toRaw,
      optionMapRoundTrip parseWorkerConfig_toRaw,
      optionMapRoundTrip parseWorkerConfig_toRaw]

theorem parseTargetConfiguration_toRaw (t : TargetConfiguration) :
    parseTargetConfiguration (targetConfigurationToRaw t) = t := by
  cases t
  simp only [parseTargetConfiguration, targetConfigurationToRaw]
  rw [optionMapRoundTrip parseWorkerTargetConfig_toRaw,
    optionMapRoundTrip parseWorkerTargetConfig_toRaw,
    optionMapRoundTrip parseWorkerTargetConfig_toRaw]

theorem parseProjectConfiguration_toRaw (c : ProjectConfiguration) :
    parseProjectConfiguration (projectConfigurationToRaw c) = c := by
  cases c with
  | mk defaults targets =>
    simp only [parseProjectConfiguration, projectConfigurationToRaw]
    rw [optionMapRoundTrip parseTargetDefaults_toRaw,
      listMapRoundTrip parseTargetConfiguration_toRaw]

/-- C9: deserializing the result of `Project.serialize` yields a project
with equal name, input files, output files and configuration — for any
project whose output files carry resolvable target references (the
documented invariant; the constructor nulls unresolvable ones) — and
legacy bare path strings are accepted and normalized at load time: a
legacy input string becomes a `design` record and a legacy output string
a record with null `targetId` and `stale = false`. -/
theorem C9_serialize_round_trip :
    (∀ p : ProjectState,
      (∀ f ∈ p.outputFiles, ∀ tid, f.targetId = some tid →
        tid ≠ "" ∧ hasTargetP p.configuration tid = true) →
      deserializeProject (serializeProject p) = p) ∧
    (∀ s : String, deserializeInputFile (InputFileData.legacy s) =
      { path := s, type := InputFileType.design }) ∧
    (∀ s : String, deserializeOutputFile (OutputFileData.legacy s) =
      { path := s, targetId := none, stale := false }) := by
  refine ⟨?_, fun s => rfl, fun s => rfl⟩
  intro p hval
  obtain ⟨nm, ins, outs, cfg⟩ := p
  have hcfg : parseProjectConfiguration (projectConfigurationToRaw cfg) = cfg :=
    parseProjectConfiguration_toRaw cfg
  unfold deserializeProject serializeProject updateConfiguration
  dsimp only
  rw [hcfg]
  rw [listMapRoundTrip (f := fun fi => InputFileData.structured fi)
    (g := deserializeInputFile) (fun fi => rfl) ins]
  rw [listMapRoundTrip (f := fun fo => OutputFileData.structured fo)
    (g := deserializeOutputFile) (fun fo => rfl) outs]
  simp only [ProjectState.mk.injEq, true_and, and_true, Option.getD_none]
  have hmap : ∀ f ∈ outs,
      (match f.targetId with
        | some tid =>
          if (tid = "" || !hasTargetP { defaults := cfg.defaults, targets := cfg.targets } tid)
          then { f with targetId := none } else f
        | none => f) = f := by
    intro f hf
    cases hft : f.targetId with
    | none => rfl
    | some tid =>
      have hv := hval f hf tid hft
      dsimp only
      rw [if_neg]
      simp only [Bool.or_eq_true, Bool.not_eq_true', decide_eq_true_eq]
      push_neg
      exact ⟨hv.1, by simpa using hv.2⟩
  calc List.map _ outs = List.map (fun f => f) outs := List.map_congr_left hmap
    _ = outs := List.map_id' outs

/-- The project used to witness C9. -/
def c9State : ProjectState :=
  { name := "Counter"
    inputFiles := [{ path := "counter.v", type := InputFileType.design }]
    outputFiles := [{ path := "ecp5.json", targetId := some "t1", stale := true }]
    configuration :=
      { defaults := some { yosys := some { lists := [("inputFiles", { values := ["extra.v"] })] } }
        targets := [{ id := "t1", name := "T", vendor := "lattice", family := "ecp5",
                      device := "lfe5u-25", package := "caBGA381" }] } }

theorem C9_serialize_round_trip_witness :
    deserializeProject (serializeProject c9State) = c9State :=
  C9_serialize_round_trip.1 c9State (by decide)

/- ## Claim C5: iverilog testbench resolution and pipeline shape -/

/-- The pipeline the spec describes for a successful iverilog
generation: a compile step with an explicit `-o` output-image flag
followed by the design files and the testbench, then a `vvp` run step on
the compiled image (spec section 4.4; compared against
`generateIVerilogWorkerOptions`). -/
def iverilogSpecResult (target : TargetConfiguration) (options : IVerilogOptions)
    (designFiles : List String) (testbenchFile : String) : IVerilogWorkerOptions :=
  { inputFiles := designFiles ++ [testbenchFile]
    outputFiles := [getTargetFile target "simulator.vvp", fileStem testbenchFile ++ ".vcd"]
    target := target
    options := options
    steps :=
      [ { tool := "iverilog"
          arguments := ["-o", getTargetFile target "simulator.vvp"] ++ designFiles ++ [testbenchFile] }
      , { tool := "vvp", arguments := [getTargetFile target "simulator.vvp"] } ] }

/-- C5: iverilog generation uses the configured `testbenchFile` when it
is set, otherwise the first `testbench`-typed input file in file order;
it fails with the missing-testbench error exactly when neither exists;
and on success the pipeline is the compile step (`-o` image, design
files, testbench) followed by the `vvp` run step. -/
theorem C5_iverilog_testbench (configuration : ProjectConfiguration)
    (projectInputFiles : List ProjectInputFile) (targetId : String)
    (target : TargetConfiguration)
    (h : getTargetP configuration targetId = some target) :
    (generateIVerilogWorkerOptions configuration projectInputFiles targetId =
        .error "Could not auto-select testbench file: no input files marked as such" ↔
      truthyS (getIVerilogOptions configuration targetId).testbenchFile = false ∧
        projectInputFiles.filter (fun f => f.type = InputFileType.testbench) = []) ∧
    (∀ tb, (getIVerilogOptions configuration targetId).testbenchFile = some tb → tb ≠ "" →
      generateIVerilogWorkerOptions configuration projectInputFiles targetId =
        .ok (iverilogSpecResult target (getIVerilogOptions configuration targetId)
          ((projectInputFiles.filter (fun f => f.type = InputFileType.design &&
            FILE_EXTENSIONS_VERILOG.contains (fileExtension f.path))).map (fun f => f.path)) tb)) ∧
    (truthyS (getIVerilogOptions configuration targetId).testbenchFile = false →
      ∀ f0, (projectInputFiles.filter (fun f => f.type = InputFileType.testbench)).head? = some f0 →
      generateIVerilogWorkerOptions configuration projectInputFiles targetId =
        .ok (iverilogSpecResult target (getIVerilogOptions configuration targetId)
          ((projectInputFiles.filter (fun f => f.type = InputFileType.design &&
            FILE_EXTENSIONS_VERILOG.contains (fileExtension f.path))).map (fun f => f.path)) f0.path)) := by
  refine ⟨?_, ?_, ?_⟩
  · unfold generateIVerilogWorkerOptions
    rw [h]
    dsimp only
    by_cases ht : truthyS (getIVerilogOptions configuration targetId).testbenchFile = true
    · rw [if_pos ht]
      dsimp only
      constructor
      · intro hc
        exact absurd hc (by simp)
      · rintro ⟨h1, _⟩
        rw [ht] at h1
        exact absurd h1 (by simp)
    · rw [if_neg ht]
      cases hh : (projectInputFiles.filter (fun f => f.type = InputFileType.testbench)).head? with
      | some f0 =>
        dsimp only
        constructor
        · intro hc
          exact absurd hc (by simp)
        · rintro ⟨_, h2⟩
          rw [h2] at hh
          exact absurd hh (by simp)
      | none =>
        dsimp only
        constructor
        · intro _
          refine ⟨by simpa using ht, ?_⟩
          exact List.head?_eq_none_iff.mp hh
        · intro _
          rfl
  · intro tb htb htbne
    unfold generateIVerilogWorkerOptions
    rw [h]
    dsimp only
    have ht : truthyS (getIVerilogOptions configuration targetId).testbenchFile = true := by
      simp [truthyS, htb, htbne]
    rw [if_pos ht, htb]
    rfl
  · intro ht f0 hf0
    unfold generateIVerilogWorkerOptions
    rw [h]
    dsimp only
    rw [if_neg (by simp [ht]), hf0]
    rfl

def c5Target : TargetConfiguration :=
  { id := "t1", name := "T", vendor := "lattice", family := "ecp5",
    device := "lfe5u-25", package := "caBGA381" }

def c5Configuration : ProjectConfiguration := { targets := [c5Target] }

def c5Files : List ProjectInputFile :=
  [{ path := "counter.v", type := InputFileType.design },
   { path := "counter_tb.v", type := InputFileType.testbench }]

theorem C5_iverilog_testbench_witness :
    generateIVerilogWorkerOptions c5Configuration c5Files "t1" =
      .ok (iverilogSpecResult c5Target (getIVerilogOptions c5Configuration "t1")
        ((c5Files.filter (fun f => f.type = InputFileType.design &&
          FILE_EXTENSIONS_VERILOG.contains (fileExtension f.path))).map (fun f => f.path))
        "counter_tb.v") :=
  (C5_iverilog_testbench c5Configuration c5Files "t1" c5Target rfl).2.2 rfl
    { path := "counter_tb.v", type := InputFileType.testbench } rfl

/- ## Claim C7: VHDL ingestion requires a top-level module -/

/-- C7: when the Yosys input files include a VHDL file, ingestion fails
with the missing-top-level-module error exactly when the effective
`topLevelModule` option is unset; when it is set, the emitted commands
are the plugin-load command, a single `ghdl` elaboration command naming
every VHDL file and the top module, the per-file Verilog reads and the
`-top` hierarchy command. -/
theorem C7_vhdl_requires_top_level_module (inputFiles : List String) (options : YosysOptions)
    (hv : inputFiles.filter (fun f => FILE_EXTENSIONS_VHDL.contains (fileExtension f)) ≠ []) :
    (getFileIngestCommands inputFiles options =
        .error "Top level module must be defined when synthesizing VHDL" ↔
      truthyS options.topLevelModule = false) ∧
    (∀ m, options.topLevelModule = some m → m ≠ "" →
      getFileIngestCommands inputFiles options =
        .ok (["plugin -i ghdl",
              "ghdl " ++ String.intercalate " "
                (inputFiles.filter (fun f => FILE_EXTENSIONS_VHDL.contains (fileExtension f)))
                ++ " -e " ++ m] ++
             (inputFiles.filter (fun f => FILE_EXTENSIONS_VERILOG.contains (fileExtension f))).map
               (fun f => "read_verilog -sv \"" ++ f ++ "\"") ++
             ["hierarchy -top " ++ m])) := by
  have hne : (inputFiles.filter
      (fun f => FILE_EXTENSIONS_VHDL.contains (fileExtension f))).isEmpty = false := by
    rw [List.isEmpty_eq_false]
    exact hv
  constructor
  · unfold getFileIngestCommands
    simp only [hne, Bool.false_eq_true, if_false]
    by_cases ht : truthyS options.topLevelModule = true
    · rw [if_pos ht]
      constructor
      · intro hc
        exact absurd hc (by simp)
      · intro h1
        rw [ht] at h1
        exact absurd h1 (by simp)
    · rw [if_neg ht]
      exact ⟨fun _ => by simpa using ht, fun _ => rfl⟩
  · intro m hm hmne
    have ht : truthyS options.topLevelModule = true := by
      simp [truthyS, hm, hmne]
    unfold getFileIngestCommands
    simp only [hne, Bool.false_eq_true, if_false, ht, if_true, hm, Option.getD_some]
    simp [truthyS, hmne]

theorem C7_vhdl_requires_top_level_module_witness :
    getFileIngestCommands ["top.vhd"] { topLevelModule := some "main" } =
      .ok (["plugin -i ghdl",
            "ghdl " ++ String.intercalate " "
              ((["top.vhd"] : List String).filter
                (fun f => FILE_EXTENSIONS_VHDL.contains (fileExtension f)))
              ++ " -e " ++ "main"] ++
           ((["top.vhd"] : List String).filter
             (fun f => FILE_EXTENSIONS_VERILOG.contains (fileExtension f))).map
             (fun f => "read_verilog -sv \"" ++ f ++ "\"") ++
           ["hierarchy -top " ++ "main"]) :=
  (C7_vhdl_requires_top_level_module ["top.vhd"] { topLevelModule := some "main" }
    (by decide)).2 "main" rfl (by decide)

/- ## Resolver behaviour in the absence of overrides (shared by the generator claims) -/

theorem targetValueList_none_of_block {cfg : ProjectConfiguration} {tid : String}
    {target : TargetConfiguration} {w : WorkerId} (h : getTargetP cfg tid = some target)
    (hb : targetLists target w = []) (key : String) :
    targetValueList cfg tid w key = none := by
  unfold targetValueList
  unfold getTargetP at h
  rw [h]
  simp [hb, lookupA]

theorem defaultValueList_none_of_block {cfg : ProjectConfiguration} {w : WorkerId}
    (hb : ∀ d, cfg.defaults = some d → defaultLists d w = []) (key : String) :
    defaultValueList cfg w key = none := by
  unfold defaultValueList
  cases hc : cfg.defaults with
  | none => rfl
  | some d => simp [hb d hc, lookupA]

theorem getCombined_no_overrides {cfg : ProjectConfiguration} {tid : String} {w : WorkerId}
    {key : String} (hd : defaultValueList cfg w key = none)
    (ht : targetValueList cfg tid w key = none)
    (generated : List String) (parse : List String → List String) :
    getCombined cfg tid w key generated parse = generated.filter (fun v => v ≠ "") := by
  unfold getCombined
  rw [hd, ht]
  unfold getCombinedBlocks resolveUseGenerated resolveUseDefault
  simp

theorem string_append_C_ne_empty (s : String) : s ++ "C" ≠ "" := by
  intro h
  have hd := congrArg String.data h
  simp [String.data_append] at hd

/- ## Claim C6: nextpnr nexus package translation -/

/-- C6: for a `nexus`-architecture target, nextpnr generation fails with
the unsupported-package error exactly when the target's package is not a
key of the fixed translation table; when it is, the generated arguments
start with `--device` followed by the device id concatenated with `-7`,
the translated package name and `C`. -/
theorem C6_nextpnr_nexus_package (vendors : Catalog) (project : ProjectState)
    (targetId : String) (target : TargetConfiguration) (vendor : Vendor)
    (family : Family) (device : Device)
    (h1 : getTargetP project.configuration targetId = some target)
    (h2 : lookupA vendors target.vendor = some vendor)
    (h3 : lookupA vendor.families target.family = some family)
    (h4 : family.architecture = "nexus")
    (h5 : lookupA family.devices target.device = some device) :
    (getNextpnrWorkerOptions vendors project targetId =
        .error ("Package \"" ++ target.package ++ "\" is currenty not supported.") ↔
      lookupA nexusPackageLookup target.package = none) ∧
    (∀ dp, lookupA nexusPackageLookup target.package = some dp →
      target.nextpnr = none →
      project.configuration.defaults.bind (fun d => d.nextpnr) = none →
      ∃ w, getNextpnrWorkerOptions vendors project targetId = .ok w ∧
        ∃ rest, w.steps.map (fun st => st.arguments) =
          [("--device" :: (device.device ++ "-7" ++ dp ++ "C") :: rest)]) := by
  constructor
  · unfold getNextpnrWorkerOptions
    rw [h1]
    dsimp only
    rw [h2]
    dsimp only
    rw [h3]
    dsimp only
    rw [h5]
    dsimp only
    simp only [h4]
    rw [if_neg (by decide), if_neg (by decide), if_neg (by decide), if_neg (by decide)]
    cases hlp : lookupA nexusPackageLookup target.package with
    | none =>
      simp [hlp]
    | some dp =>
      simp [hlp]
  · intro dp hlp hblock hdno
    have ht : ∀ key, targetValueList project.configuration targetId WorkerId.nextpnr key = none :=
      fun key => targetValueList_none_of_block h1 (by simp [targetLists, hblock]) key
    have hd : ∀ key, defaultValueList project.configuration WorkerId.nextpnr key = none := by
      intro key
      apply defaultValueList_none_of_block (fun d hc => ?_) key
      rw [hc] at hdno
      have hdn : d.nextpnr = none := by simpa using hdno
      simp [defaultLists, hdn]
    unfold getNextpnrWorkerOptions
    rw [h1]
    dsimp only
    rw [h2]
    dsimp only
    rw [h3]
    dsimp only
    rw [h5]
    dsimp only
    simp only [h4]
    rw [if_neg (by decide), if_neg (by decide), if_neg (by decide), if_neg (by decide)]
    simp only [hlp, if_true]
    rw [getCombined_no_overrides (hd "arguments") (ht "arguments")]
    refine ⟨_, rfl, ?_⟩
    dsimp only
    simp only [List.cons_append, List.nil_append, List.append_assoc]
    rw [List.filter_cons_of_pos (by decide),
      List.filter_cons_of_pos (by simp [string_append_C_ne_empty])]
    exact ⟨_, rfl⟩

def c6Device : Device := { device := "LIFCL-40", packages := ["FOO", "caBGA256"] }

def c6Family : Family := { architecture := "nexus", devices := [("lifcl-40", c6Device)] }

def c6Vendor : Vendor := { families := [("crosslink-nx", c6Family)] }

def c6Catalog : Catalog := [("lattice", c6Vendor)]

def c6Target : TargetConfiguration :=
  { id := "t1", name := "N", vendor := "lattice", family := "crosslink-nx",
    device := "lifcl-40", package := "FOO" }

def c6Project : ProjectState :=
  { name := "p", configuration := { targets := [c6Target] } }

theorem C6_nextpnr_nexus_package_witness :
    getNextpnrWorkerOptions c6Catalog c6Project "t1" =
      .error ("Package \"" ++ "FOO" ++ "\" is currenty not supported.") :=
  (C6_nextpnr_nexus_package c6Catalog c6Project "t1" c6Target c6Vendor c6Family c6Device
    rfl rfl rfl rfl rfl).1.mpr rfl

/- ## Claim C3: yosys ecp5 synthesis scenario -/

/-- C3: for a project with the single design file `counter.v` and an
`ecp5`-architecture target with default (unoverridden) options, the
Yosys synthesis pipeline's `synth` step ends (as its last non-empty
command) with a `synth_ecp5` invocation whose `-json` output path is
exactly the `ecp5.json` file registered as that pipeline's output file
for the target. -/
theorem C3_yosys_synth_ecp5 (vendors : Catalog) (project : ProjectState)
    (targetId : String) (target : TargetConfiguration) (vendor : Vendor) (family : Family)
    (h1 : getTargetP project.configuration targetId = some target)
    (h2 : lookupA vendors target.vendor = some vendor)
    (h3 : lookupA vendor.families target.family = some family)
    (h4 : family.architecture = "ecp5")
    (h5 : target.directory = none)
    (h6 : target.yosys = none)
    (h7 : project.configuration.defaults.bind (fun d => d.yosys) = none)
    (h8 : project.inputFiles = [{ path := "counter.v", type := InputFileType.design }]) :
    ∃ w, getYosysSynthesisWorkerOptions vendors project targetId = .ok w ∧
      w.outputFiles = ["ecp5.json"] ∧
      w.steps.map (fun st => st.id) = ["prepare", "synth"] ∧
      ∃ out synthStep, w.outputFiles = [out] ∧ w.steps.getLast? = some synthStep ∧
        synthStep.commands.getLast? = some ("synth_ecp5 -json \"" ++ out ++ "\";") := by
  have h1f : project.configuration.targets.find? (fun t => t.id = targetId) = some target := h1
  have htL : ∀ key, targetValueList project.configuration targetId WorkerId.yosys key = none :=
    fun key => targetValueList_none_of_block h1 (by simp [targetLists, h6]) key
  have hdL : ∀ key, defaultValueList project.configuration WorkerId.yosys key = none := by
    intro key
    apply defaultValueList_none_of_block (fun d hc => ?_) key
    rw [hc] at h7
    have hdn : d.yosys = none := by simpa using h7
    simp [defaultLists, hdn]
  have hopts : getYosysOptions project.configuration targetId =
      { optimize := some true, topLevelModule := none } := by
    unfold getYosysOptions defaultsYosysOptions targetYosysOptions
    rw [h1f]
    cases hc : project.configuration.defaults with
    | none => simp [h6, spreadYosysOptions, overrideO, yosysDefaultOptions]
    | some d =>
      rw [hc] at h7
      have hdn : d.yosys = none := by simpa using h7
      simp [h6, hdn, spreadYosysOptions, overrideO, yosysDefaultOptions]
  have hin : getYosysInputFiles project targetId = ["counter.v"] := by
    unfold getYosysInputFiles
    rw [h8]
    simp only [getCombined_no_overrides (hdL "inputFiles") (htL "inputFiles")]
    rfl
  have hout : getYosysOutputFiles project targetId [family.architecture ++ ".json"] =
      .ok ["ecp5.json"] := by
    unfold getYosysOutputFiles
    rw [h1]
    dsimp only
    simp only [getCombined_no_overrides (hdL "outputFiles") (htL "outputFiles")]
    simp only [getTargetFile, h5, h4]
    rfl
  unfold getYosysSynthesisWorkerOptions
  rw [h1]
  dsimp only
  rw [h2]
  dsimp only
  rw [h3]
  dsimp only
  rw [hout]
  dsimp only
  rw [hin, hopts]
  rw [show getFileIngestCommands ["counter.v"]
      { optimize := some true, topLevelModule := none } =
      .ok ["read_verilog -sv \"counter.v\"", "hierarchy -auto-top"] from rfl]
  dsimp only
  simp only [getCombined_no_overrides (hdL "synthPrepareCommands") (htL "synthPrepareCommands"),
    getCombined_no_overrides (hdL "synthCommands") (htL "synthCommands")]
  simp only [getTargetFile, h5, h4]
  rw [if_neg (by decide)]
  refine ⟨_, rfl, rfl, rfl, ⟨"ecp5.json", _, rfl, rfl, ?_⟩⟩
  rfl

def c3Device : Device := { device := "25k", packages := ["caBGA381"] }

def c3Family : Family := { architecture := "ecp5", devices := [("lfe5u-25", c3Device)] }

def c3Vendor : Vendor := { families := [("ecp5", c3Family)] }

def c3Catalog : Catalog := [("lattice", c3Vendor)]

def c3Target : TargetConfiguration :=
  { id := "t1", name := "E", vendor := "lattice", family := "ecp5",
    device := "lfe5u-25", package := "caBGA381" }

def c3Project : ProjectState :=
  { name := "Counter"
    inputFiles := [{ path := "counter.v", type := InputFileType.design }]
    configuration := { targets := [c3Target] } }

theorem C3_yosys_synth_ecp5_witness :
    ∃ w, getYosysSynthesisWorkerOptions c3Catalog c3Project "t1" = .ok w ∧
      w.outputFiles = ["ecp5.json"] ∧
      w.steps.map (fun st => st.id) = ["prepare", "synth"] ∧
      ∃ out synthStep, w.outputFiles = [out] ∧ w.steps.getLast? = some synthStep ∧
        synthStep.commands.getLast? = some ("synth_ecp5 -json \"" ++ out ++ "\";") :=
  C3_yosys_synth_ecp5 c3Catalog c3Project "t1" c3Target c3Vendor c3Family
    rfl rfl rfl rfl rfl rfl rfl rfl
